import Mathlib

/-!
# Verification of `fairylightswithswitch.py`

A shallow embedding of the fairy-lights controller: a MicroPython loop that
drives a warm and a cool LED channel, either crossfading sinusoidally or in a
fixed 50/50 blend, selected by an SPDT switch and scaled by a potentiometer.

Python floats are modelled by real numbers; Python `int(x)` truncation toward
zero by `pyInt`; Python `%` on floats by `fmod`; Python integer `//` by `Int`
division.  GPIO pin activity is modelled as a sequence of instantaneous pin
writes, and the scheduler loop as a state-transition function.
-/

open Real

namespace FairyLights

/-- Python `int(x)` on a float: truncation toward zero. -/
noncomputable def pyInt (x : ℝ) : ℤ := if 0 ≤ x then ⌊x⌋ else ⌈x⌉

/-- Python float `x % y` (result has the sign of `y`; for `y > 0` it lies in
`[0, y)`): `x - y * ⌊x / y⌋`. -/
noncomputable def fmod (x y : ℝ) : ℝ := x - y * ⌊x / y⌋

/-! ## Configuration constants (source lines 27-36) -/

/-- `crossfade_speed = 5000  # ms cycle` (line 27). -/
def crossfade_speed : ℤ := 5000

/-- `ac_freq = 500  # Hz blend` (line 28). -/
def ac_freq : ℤ := 500

/-- `cool_brightness_factor = 0.45  # Cool dim` (line 29). -/
noncomputable def cool_brightness_factor : ℝ := 0.45

/-- `min_r = 0.05  # Min ratio` (line 30). -/
noncomputable def min_r : ℝ := 0.05

/-- `max_r = 0.95  # Max range` (line 31). -/
noncomputable def max_r : ℝ := 0.95

/-- `gamma = 1.5  # Contrast` (line 32). -/
noncomputable def gamma : ℝ := 1.5

/-- `half_p_us = 500000 // ac_freq` (line 36): Python integer floor division. -/
def half_p_us : ℤ := 500000 / ac_freq

/-- `half_period_us = 500000 // ac_freq`, recomputed inside
`crossfade_update` (line 61). -/
def half_period_us : ℤ := 500000 / ac_freq

/-! ## Waveform table (source lines 39-41) -/

/-- `NUM_STEPS = 3600` (line 39). -/
def NUM_STEPS : ℕ := 3600

/-- `sine_table = [math.sin(2 * math.pi * i / NUM_STEPS) for i in range(NUM_STEPS)]`
(line 40). -/
noncomputable def sine_table : List ℝ :=
  (List.range NUM_STEPS).map (fun i : ℕ => Real.sin (2 * π * i / NUM_STEPS))

/-- `phase_to_step = lambda p: int((p % (2 * math.pi)) * NUM_STEPS / (2 * math.pi)) % NUM_STEPS`
(line 41).  Python `%` on the float is `fmod`, `int` truncates toward zero, and
the trailing `%` on the int result is Euclidean (nonnegative) since
`NUM_STEPS > 0`, matching `Int.emod`. -/
noncomputable def phase_to_step (p : ℝ) : ℤ :=
  pyInt (fmod p (2 * π) * NUM_STEPS / (2 * π)) % NUM_STEPS

/-! ## Brightness mapping in `crossfade_update` (source lines 63-69) -/

/-- `warm_linear = min_r + max_r * (1.0 + sin_val) / 2` (line 63). -/
noncomputable def warm_linear (sin_val : ℝ) : ℝ :=
  min_r + max_r * (1.0 + sin_val) / 2

/-- `warm_ratio = pow(warm_linear, gamma)` (line 64): real exponentiation. -/
noncomputable def warm_ratio (sin_val : ℝ) : ℝ := warm_linear sin_val ^ gamma

/-- `warm_on_us = int(half_period_us * warm_ratio * pot_multiplier)` (line 65). -/
noncomputable def warm_on_us (sin_val pot_multiplier : ℝ) : ℤ :=
  pyInt ((half_period_us : ℝ) * warm_ratio sin_val * pot_multiplier)

/-- `cool_linear = min_r + max_r * (1.0 - sin_val) / 2` (line 67). -/
noncomputable def cool_linear (sin_val : ℝ) : ℝ :=
  min_r + max_r * (1.0 - sin_val) / 2

/-- `cool_ratio = pow(cool_linear, gamma) * cool_brightness_factor` (line 68). -/
noncomputable def cool_ratio (sin_val : ℝ) : ℝ :=
  cool_linear sin_val ^ gamma * cool_brightness_factor

/-- `cool_on_us = int(half_period_us * cool_ratio * pot_multiplier)` (line 69). -/
noncomputable def cool_on_us (sin_val pot_multiplier : ℝ) : ℤ :=
  pyInt ((half_period_us : ℝ) * cool_ratio sin_val * pot_multiplier)

/-! ## Phase advance in `crossfade_update` (source lines 52-54) -/

/-- Lines 52-54: `phase += (2 * math.pi * delta_ms) / crossfade_speed`,
then `if phase >= 2 * math.pi: phase -= 2 * math.pi` (a single subtraction of
`2π`, applied only when the accumulated phase reached `2π`). -/
noncomputable def advance_phase (phase : ℝ) (delta_ms : ℤ) : ℝ :=
  if 2 * π ≤ phase + (2 * π * (delta_ms : ℝ)) / (crossfade_speed : ℝ)
  then phase + (2 * π * (delta_ms : ℝ)) / (crossfade_speed : ℝ) - 2 * π
  else phase + (2 * π * (delta_ms : ℝ)) / (crossfade_speed : ℝ)

/-! ## The all-on update path (source lines 73-89)

Line 86 reads `c_r = pow(c_lin, gamma) * cool_factor`, but no global named
`cool_factor` is ever assigned in the module: the configuration constant of
line 29 is spelled `cool_brightness_factor`.  We model the module's
configuration namespace as a name-to-value map transcribed from lines 27-32,
and the body of `all_on_update` as an `Option`-valued computation that fails
(Python `NameError`, aborting the call before any channel is driven) exactly
where the undefined name is read. -/

/-- Name resolution for the numeric configuration globals assigned at module
top level, lines 27-32 of the source.  Any other name is unbound (`none`). -/
noncomputable def configEnv : String → Option ℝ := fun n =>
  if n = "crossfade_speed" then some 5000
  else if n = "ac_freq" then some 500
  else if n = "cool_brightness_factor" then some 0.45
  else if n = "min_r" then some 0.05
  else if n = "max_r" then some 0.95
  else if n = "gamma" then some 1.5
  else none

/-- The duration computation of `all_on_update` (lines 79-88), given the
normalized pot reading `pot_mult`.  `sin_v = 0.0`; warm is computed as on
lines 81-83; the cool branch (line 86) must resolve the name `cool_factor`
from the module environment, and returns `none` (Python `NameError`) when the
lookup fails.  On success the pair `(w_on, c_on)` would be handed to
`alternate_polarity` (line 88). -/
noncomputable def all_on_durations (pot_mult : ℝ) : Option (ℤ × ℤ) :=
  let sin_v : ℝ := 0.0
  let w_lin := min_r + max_r * (1.0 + sin_v) / 2
  let w_r := w_lin ^ gamma
  let w_on := pyInt ((half_p_us : ℝ) * w_r * pot_mult)
  match configEnv "cool_factor" with
  | none => none
  | some cf =>
    let c_lin := min_r + max_r * (1.0 - sin_v) / 2
    let c_r := c_lin ^ gamma * cf
    let c_on := pyInt ((half_p_us : ℝ) * c_r * pot_mult)
    some (w_on, c_on)

/-! ## GPIO pin model and `alternate_polarity` (source lines 43-45, 91-101)

The two output lines `IN1` (warm) and `IN2` (cool) are modelled as a pair of
booleans; each `.on()` / `.off()` call in the source is one instantaneous
`PinOp`.  Busy-waits change no pin, so they contribute no op; their durations
are recorded separately by `alternate_sleeps`. -/

/-- State of the two output lines: `in1` drives the warm channel (D5),
`in2` the cool channel (D6). -/
structure PinState where
  in1 : Bool
  in2 : Bool
deriving DecidableEq, Repr

/-- One instantaneous GPIO write: `IN1.on()/IN1.off()` is `set1 true/false`,
`IN2.on()/IN2.off()` is `set2 true/false`. -/
inductive PinOp where
  | set1 (v : Bool)
  | set2 (v : Bool)
deriving DecidableEq, Repr

/-- Effect of one pin write on the pin state. -/
def applyOp (s : PinState) : PinOp → PinState
  | .set1 v => ⟨v, s.in2⟩
  | .set2 v => ⟨s.in1, v⟩

/-- Pin state after running a sequence of pin writes. -/
def runOps (s : PinState) (ops : List PinOp) : PinState := ops.foldl applyOp s

/-- At most one channel energized: never both lines on at once. -/
def safe (s : PinState) : Bool := !(s.in1 && s.in2)

/-- `allSafe s ops` checks `safe` at the initial state, after every pin
write, and at the final state — i.e. at every instant of the op sequence. -/
def allSafe (s : PinState) : List PinOp → Bool
  | [] => safe s
  | op :: rest => safe s && allSafe (applyOp s op) rest

/-- The pin writes of `both_off()` (lines 43-45): `IN1.off(); IN2.off()`. -/
def both_off_ops : List PinOp := [.set1 false, .set2 false]

/-- The pin writes of one `alternate_polarity(w_on, c_on)` call
(lines 91-101), in source order: `IN1.on(); IN2.off()`, then after the warm
pulse `IN1.off()`, then `IN1.off(); IN2.on()`, then after the cool pulse
`IN2.off()`.  The four `utime.sleep_us` calls write no pin. -/
def alternate_polarity_ops : List PinOp :=
  [.set1 true, .set2 false, .set1 false, .set1 false, .set2 true, .set2 false]

/-- The four busy-wait durations of `alternate_polarity(w_on, c_on)`
(lines 94, 96, 99, 101): `w_on`, `half_p_us - w_on`, `c_on`,
`half_p_us - c_on` microseconds. -/
def alternate_sleeps (w_on c_on : ℤ) : List ℤ :=
  [w_on, half_p_us - w_on, c_on, half_p_us - c_on]

/-! ## Scheduler loop (source lines 104-120)

One loop iteration: poll the switch (line 107), on a mode change reset
`current_mode`, `phase`, `last_step` and force both pins off (lines 108-113),
then dispatch to the mode's update path.  For the pin-safety claims an
iteration is abstracted by two booleans: whether a mode flip occurred and
whether the dispatched update fired `alternate_polarity` (the crossfade path
fires only when `delta_ms >= 5`; the all-on path aborts with `NameError`
before reaching the driver, hence never fires). -/

/-- The pin writes of one scheduler iteration: the `both_off()` of a mode
flip (line 112) if one occurred, followed by the `alternate_polarity` writes
if the dispatched update drove the channels this iteration. -/
def iteration_ops (modeFlip fired : Bool) : List PinOp :=
  (if modeFlip then both_off_ops else []) ++
    (if fired then alternate_polarity_ops else [])

/-- The pin writes of a whole run: one `iteration_ops` per loop iteration,
each iteration described by its (mode-flip, driver-fired) pair. -/
def program_ops (iters : List (Bool × Bool)) : List PinOp :=
  (iters.map (fun it => iteration_ops it.1 it.2)).flatten

/-- The mutable scheduler state read and written by the main loop:
`current_mode` (0 = crossfade, 1 = all on), `phase`, `last_step`, and the two
output pins. -/
structure SchedState where
  current_mode : ℕ
  phase : ℝ
  last_step : ℤ
  in1 : Bool
  in2 : Bool

/-- `new_mode = 0 if SWITCH_PIN.value() == 1 else 1` (line 107). -/
def new_mode_of (switch_value : ℕ) : ℕ := if switch_value = 1 then 0 else 1

/-- Lines 107-113 of the main loop: poll the switch and, if the polled mode
differs from `current_mode`, commit the transition — set `current_mode`,
reset `phase` to `0.0`, set `last_step` to `now`, and run `both_off()`.
This runs before the dispatch to either update path (lines 115-118), hence
before the next duty computation. -/
noncomputable def mode_check (s : SchedState) (switch_value : ℕ) (now : ℤ) :
    SchedState :=
  let new_mode := new_mode_of switch_value
  if new_mode ≠ s.current_mode then
    { s with
      current_mode := new_mode
      phase := 0.0
      last_step := now
      in1 := false
      in2 := false }
  else s

/-! ## Helper lemmas -/

theorem pyInt_of_nonneg {x : ℝ} (hx : 0 ≤ x) : pyInt x = ⌊x⌋ := if_pos hx

theorem pyInt_bounds {x : ℝ} {b : ℤ} (hx : 0 ≤ x) (hxb : x ≤ (b : ℝ)) :
    0 ≤ pyInt x ∧ pyInt x ≤ b := by
  rw [pyInt_of_nonneg hx]
  refine ⟨Int.floor_nonneg.mpr hx, ?_⟩
  have h1 : ⌊x⌋ ≤ ⌊(b : ℝ)⌋ := Int.floor_mono hxb
  simpa using h1

theorem rpow_gamma_eq {x : ℝ} (hx : 0 < x) : x ^ gamma = x * Real.sqrt x := by
  have hg : gamma = (1 : ℝ) + 1 / 2 := by norm_num [gamma]
  rw [hg, Real.rpow_add hx, Real.rpow_one, Real.sqrt_eq_rpow]

theorem half_period_us_eq : half_period_us = 1000 := by decide

theorem half_p_us_eq : half_p_us = 1000 := by decide

theorem warm_linear_bounds {s : ℝ} (h1 : -1 ≤ s) (h2 : s ≤ 1) :
    0.05 ≤ warm_linear s ∧ warm_linear s ≤ 1 := by
  unfold warm_linear min_r max_r
  constructor <;> nlinarith

theorem cool_linear_bounds {s : ℝ} (h1 : -1 ≤ s) (h2 : s ≤ 1) :
    0.05 ≤ cool_linear s ∧ cool_linear s ≤ 1 := by
  unfold cool_linear min_r max_r
  constructor <;> nlinarith

theorem warm_ratio_bounds {s : ℝ} (h1 : -1 ≤ s) (h2 : s ≤ 1) :
    0 ≤ warm_ratio s ∧ warm_ratio s ≤ 1 := by
  obtain ⟨ha, hb⟩ := warm_linear_bounds h1 h2
  have h0 : (0 : ℝ) ≤ warm_linear s := by linarith
  unfold warm_ratio
  exact ⟨Real.rpow_nonneg h0 gamma, Real.rpow_le_one h0 hb (by norm_num [gamma])⟩

theorem cool_ratio_bounds {s : ℝ} (h1 : -1 ≤ s) (h2 : s ≤ 1) :
    0 ≤ cool_ratio s ∧ cool_ratio s ≤ 1 := by
  obtain ⟨ha, hb⟩ := cool_linear_bounds h1 h2
  have h0 : (0 : ℝ) ≤ cool_linear s := by linarith
  have hr0 : 0 ≤ cool_linear s ^ gamma := Real.rpow_nonneg h0 gamma
  have hr1 : cool_linear s ^ gamma ≤ 1 :=
    Real.rpow_le_one h0 hb (by norm_num [gamma])
  unfold cool_ratio cool_brightness_factor
  constructor <;> nlinarith

/-! ## Claim theorems -/

/-- C1: the claim says the all-on update path computes durations from
`osc_value = 0` with no error conditions and drives the channels.  In fact
line 86 of `all_on_update` reads the global name `cool_factor`, which the
module never defines (the constant of line 29 is `cool_brightness_factor`),
so every firing of the all-on update aborts with a Python `NameError` before
any duration pair is produced or any channel driven: for every pot reading
the modelled computation returns `none`. -/
theorem C1_all_on_name_error (pot_mult : ℝ) : all_on_durations pot_mult = none := by
  have h : configEnv "cool_factor" = none := by
    unfold configEnv
    simp
  unfold all_on_durations
  rw [h]

/-- C2: for every `osc_value` in `[-1, 1]` and every `pot_scalar` in
`[0, 1]`, the crossfade duty computation (lines 63-69: `min_r = 0.05`,
`max_r = 0.95`, `gamma = 1.5`, cool factor `0.45`) returns `warm_on_us`
and `cool_on_us` both in `[0, half_period_us]`. -/
theorem C2_duty_bounds (s pot : ℝ) (hs1 : -1 ≤ s) (hs2 : s ≤ 1)
    (hp1 : 0 ≤ pot) (hp2 : pot ≤ 1) :
    (0 ≤ warm_on_us s pot ∧ warm_on_us s pot ≤ half_period_us) ∧
      (0 ≤ cool_on_us s pot ∧ cool_on_us s pot ≤ half_period_us) := by
  obtain ⟨hw0, hw1⟩ := warm_ratio_bounds hs1 hs2
  obtain ⟨hc0, hc1⟩ := cool_ratio_bounds hs1 hs2
  have hh : ((half_period_us : ℤ) : ℝ) = 1000 := by rw [half_period_us_eq]; norm_num
  have hhpos : (0 : ℝ) ≤ ((half_period_us : ℤ) : ℝ) := by rw [hh]; norm_num
  constructor
  · unfold warm_on_us
    refine pyInt_bounds ?_ ?_
    · exact mul_nonneg (mul_nonneg hhpos hw0) hp1
    · have h1 := mul_le_of_le_one_right (mul_nonneg hhpos hw0) hp2
      have h2 := mul_le_of_le_one_right hhpos hw1
      linarith
  · unfold cool_on_us
    refine pyInt_bounds ?_ ?_
    · exact mul_nonneg (mul_nonneg hhpos hc0) hp1
    · have h1 := mul_le_of_le_one_right (mul_nonneg hhpos hc0) hp2
      have h2 := mul_le_of_le_one_right hhpos hc1
      linarith

/-- Witness for C2 at `osc_value = 0`, `pot_scalar = 1/2`. -/
theorem C2_duty_bounds_witness :
    ((-1 : ℝ) ≤ 0 ∧ (0 : ℝ) ≤ 1 ∧ (0 : ℝ) ≤ 1 / 2 ∧ (1 / 2 : ℝ) ≤ 1) ∧
      ((0 ≤ warm_on_us 0 (1 / 2) ∧ warm_on_us 0 (1 / 2) ≤ half_period_us) ∧
        (0 ≤ cool_on_us 0 (1 / 2) ∧ cool_on_us 0 (1 / 2) ≤ half_period_us)) :=
  ⟨by norm_num,
    C2_duty_bounds 0 (1 / 2) (by norm_num) (by norm_num) (by norm_num) (by norm_num)⟩

/-- C3 counterexample: the claim asserts that at peak warm
(`osc_value = 1.0`, `pot = 1.0`, `half_period_us = 1000`) the computation
yields `warm_linear = 0.95` and `warm_us` in `[920, 930]`.  In the source
`max_r = 0.95` (line 31), so `warm_linear = 0.05 + 0.95·(1+1)/2 = 1.0`, not
`0.95`, and `warm_on_us = 1000`, outside `[920, 930]`. -/
theorem C3_counterexample :
    ¬ (warm_linear 1 = 0.95 ∧ 920 ≤ warm_on_us 1 1 ∧ warm_on_us 1 1 ≤ 930) := by
  intro h
  have hws : warm_linear 1 = 1 := by norm_num [warm_linear, min_r, max_r]
  rw [hws] at h
  norm_num at h

/-- C3 (amended): at peak warm (`osc_value = 1.0`, `pot = 1.0`,
`half_period_us = 1000`) the crossfade computation yields
`warm_linear = 1.0`, `warm_on_us = 1000`, `cool_linear = 0.05`, and
`cool_on_us = 5`, which lies in `[3, 8]`. -/
theorem C3_peak_warm_amended :
    warm_linear 1 = 1 ∧ warm_on_us 1 1 = 1000 ∧
      cool_linear 1 = 0.05 ∧ cool_on_us 1 1 = 5 ∧
      3 ≤ cool_on_us 1 1 ∧ cool_on_us 1 1 ≤ 8 := by
  have hh : ((half_period_us : ℤ) : ℝ) = 1000 := by rw [half_period_us_eq]; norm_num
  have hwl : warm_linear 1 = 1 := by norm_num [warm_linear, min_r, max_r]
  have hcl : cool_linear 1 = 0.05 := by norm_num [cool_linear, min_r, max_r]
  have hwr : warm_ratio 1 = 1 := by
    unfold warm_ratio
    rw [hwl, Real.one_rpow]
  have hwus : warm_on_us 1 1 = 1000 := by
    unfold warm_on_us
    rw [hwr, hh]
    norm_num [pyInt]
  have h05 : (0 : ℝ) < 0.05 := by norm_num
  have hs2 : Real.sqrt 0.05 ^ 2 = 0.05 := Real.sq_sqrt h05.le
  have hsn : 0 ≤ Real.sqrt 0.05 := Real.sqrt_nonneg _
  have hcr : cool_ratio 1 = 0.05 * Real.sqrt 0.05 * 0.45 := by
    unfold cool_ratio cool_brightness_factor
    rw [hcl, rpow_gamma_eq h05]
  have hcus : cool_on_us 1 1 = 5 := by
    unfold cool_on_us
    rw [hcr, hh, pyInt_of_nonneg (by positivity)]
    rw [Int.floor_eq_iff]
    constructor
    · push_cast
      nlinarith
    · push_cast
      nlinarith
  exact ⟨hwl, hwus, hcl, hcus, by rw [hcus]; norm_num, by rw [hcus]; norm_num⟩

/-- C4: for every pair `(w_on, c_on)` with both in `[0, half_p_us]`, one
invocation of `alternate_polarity` busy-waits a total of exactly
`2 · half_p_us` microseconds — `w_on + (half_p_us - w_on) + c_on +
(half_p_us - c_on)` — independent of the duty split, and every individual
busy-wait duration is nonnegative. -/
theorem C4_cycle_time (w_on c_on : ℤ) (hw0 : 0 ≤ w_on) (hw1 : w_on ≤ half_p_us)
    (hc0 : 0 ≤ c_on) (hc1 : c_on ≤ half_p_us) :
    (alternate_sleeps w_on c_on).sum = 2 * half_p_us ∧
      ∀ d ∈ alternate_sleeps w_on c_on, 0 ≤ d := by
  constructor
  · simp [alternate_sleeps]
    ring
  · intro d hd
    simp [alternate_sleeps] at hd
    rcases hd with h | h | h | h <;> omega

/-- Witness for C4 at `w_on = 200`, `c_on = 100`. -/
theorem C4_cycle_time_witness :
    ((0 : ℤ) ≤ 200 ∧ (200 : ℤ) ≤ half_p_us ∧ (0 : ℤ) ≤ 100 ∧
        (100 : ℤ) ≤ half_p_us) ∧
      ((alternate_sleeps 200 100).sum = 2 * half_p_us ∧
        ∀ d ∈ alternate_sleeps 200 100, 0 ≤ d) :=
  ⟨by refine ⟨by norm_num, ?_, by norm_num, ?_⟩ <;> rw [half_p_us_eq] <;> norm_num,
    C4_cycle_time 200 100 (by norm_num) (by rw [half_p_us_eq]; norm_num)
      (by norm_num) (by rw [half_p_us_eq]; norm_num)⟩

theorem safe_of_allSafe {s : PinState} {l : List PinOp}
    (h : allSafe s l = true) : safe s = true := by
  cases l with
  | nil => exact h
  | cons op rest =>
    simp only [allSafe, Bool.and_eq_true] at h
    exact h.1

theorem allSafe_append (l1 : List PinOp) (s : PinState) (l2 : List PinOp) :
    allSafe s (l1 ++ l2) = true ↔
      allSafe s l1 = true ∧ allSafe (runOps s l1) l2 = true := by
  induction l1 generalizing s with
  | nil =>
    simp only [List.nil_append, runOps, List.foldl_nil]
    exact ⟨fun h => ⟨safe_of_allSafe h, h⟩, fun h => h.2⟩
  | cons op rest ih =>
    simp only [List.cons_append, allSafe, Bool.and_eq_true, runOps,
      List.foldl_cons] at *
    constructor
    · rintro ⟨h1, h2⟩
      obtain ⟨h3, h4⟩ := (ih (applyOp s op)).mp h2
      exact ⟨⟨h1, h3⟩, h4⟩
    · rintro ⟨⟨h1, h3⟩, h4⟩
      exact ⟨h1, (ih (applyOp s op)).mpr ⟨h3, h4⟩⟩

theorem runOps_append (s : PinState) (l1 l2 : List PinOp) :
    runOps s (l1 ++ l2) = runOps (runOps s l1) l2 := by
  simp [runOps, List.foldl_append]

theorem iteration_ops_safe (modeFlip fired : Bool) :
    allSafe ⟨false, false⟩ (iteration_ops modeFlip fired) = true ∧
      runOps ⟨false, false⟩ (iteration_ops modeFlip fired) = ⟨false, false⟩ := by
  cases modeFlip <;> cases fired <;> exact ⟨by decide, by decide⟩

theorem program_ops_cons (p : Bool × Bool) (rest : List (Bool × Bool)) :
    program_ops (p :: rest) = iteration_ops p.1 p.2 ++ program_ops rest := by
  simp [program_ops]

/-- C5: at most one of the two output channels is energized at any instant.
Starting from both lines off, along the pin-write trace of any finite run of
the scheduler loop — each iteration contributing its `both_off` writes on a
mode flip and the `alternate_polarity` writes when the driver fires — the
state before and after every single GPIO write satisfies `safe`: the warm
(IN1) and cool (IN2) lines are never simultaneously on. -/
theorem C5_mutual_exclusion (iters : List (Bool × Bool)) :
    allSafe ⟨false, false⟩ (program_ops iters) = true := by
  induction iters with
  | nil => decide
  | cons p rest ih =>
    rw [program_ops_cons, allSafe_append]
    obtain ⟨h1, h2⟩ := iteration_ops_safe p.1 p.2
    rw [h2]
    exact ⟨h1, ih⟩

/-- C10: every invocation of `alternate_polarity` ends with both channels
de-energized — its pin-write sequence leaves the state `⟨false, false⟩` from
any starting pin state — and consequently, at the top of every scheduler
iteration (i.e. after any finite prefix of iterations, where the mode poll of
the next iteration happens), both output channels are off. -/
theorem C10_both_off_at_iteration_top :
    (∀ s : PinState, runOps s alternate_polarity_ops = ⟨false, false⟩) ∧
      ∀ iters : List (Bool × Bool),
        runOps ⟨false, false⟩ (program_ops iters) = ⟨false, false⟩ := by
  constructor
  · rintro ⟨a, b⟩
    cases a <;> cases b <;> decide
  · intro iters
    induction iters with
    | nil => decide
    | cons p rest ih =>
      rw [program_ops_cons, runOps_append, (iteration_ops_safe p.1 p.2).2, ih]

/-- C6: on every scheduler iteration in which the polled mode differs from
`current_mode`, lines 108-113 run before the dispatch to either update path:
the resulting state has `current_mode` set to the polled mode, `phase`
reset to exactly `0.0`, `last_step` reset to `now`, and both output lines
forced off.  The result is fully determined by the polled mode and `now` —
in particular it does not depend on the pre-flip `phase`, so no subsequent
duty computation or pulse can use the pre-flip phase. -/
theorem C6_mode_transition_reset (s : SchedState) (switch_value : ℕ) (now : ℤ)
    (h : new_mode_of switch_value ≠ s.current_mode) :
    mode_check s switch_value now =
      ⟨new_mode_of switch_value, 0, now, false, false⟩ := by
  unfold mode_check
  rw [if_pos h]
  simp only [SchedState.mk.injEq]
  norm_num

/-- Witness for C6: a flip from crossfade (mode 0, mid-cycle phase 1, both
pins on) on a LOW switch reading. -/
theorem C6_mode_transition_reset_witness :
    new_mode_of 0 ≠ (⟨0, 1, 5, true, true⟩ : SchedState).current_mode ∧
      mode_check ⟨0, 1, 5, true, true⟩ 0 7 = ⟨new_mode_of 0, 0, 7, false, false⟩ :=
  ⟨by decide, C6_mode_transition_reset ⟨0, 1, 5, true, true⟩ 0 7 (by decide)⟩

/-- C7 counterexample: the claim quantifies over every `delta_ms ≥ 5`, but
the wrap at line 53-54 subtracts `2π` only once.  At `phase = 0` with
`delta_ms = 10000` (two full cycle periods) the advanced phase is `4π` and
the single subtraction leaves `2π`, which is outside `[0, 2π)`. -/
theorem C7_counterexample :
    ¬ (0 ≤ advance_phase 0 10000 ∧ advance_phase 0 10000 < 2 * π) := by
  have hcs : ((crossfade_speed : ℤ) : ℝ) = 5000 := by norm_num [crossfade_speed]
  have harg : (0 : ℝ) + 2 * π * ((10000 : ℤ) : ℝ) / ((crossfade_speed : ℤ) : ℝ)
      = 4 * π := by

    rw [hcs]
    push_cast
    ring
  have hval : advance_phase 0 10000 = 2 * π := by
    unfold advance_phase
    rw [harg, if_pos (by nlinarith [Real.pi_pos])]
    ring
  rw [hval]
  rintro ⟨-, h⟩
  exact lt_irrefl _ h

/-- C7 (amended): starting from any `phase` in `[0, 2π)`, after a
`crossfade_update` firing with elapsed `delta_ms` between the 5 ms
granularity gate and one full cycle period (5000 ms), the phase — advanced
by `2π·delta_ms/5000` and wrapped by a single subtraction of `2π` — again
lies in `[0, 2π)`.  (For `delta_ms > 5000` the single subtraction cannot
compensate, see the counterexample.) -/
theorem C7_phase_invariant_amended (phase : ℝ) (delta_ms : ℤ)
    (hp0 : 0 ≤ phase) (hp1 : phase < 2 * π) (hd5 : 5 ≤ delta_ms)
    (hd : delta_ms ≤ 5000) :
    0 ≤ advance_phase phase delta_ms ∧ advance_phase phase delta_ms < 2 * π := by
  have hπ := Real.pi_pos
  have hcs : ((crossfade_speed : ℤ) : ℝ) = 5000 := by norm_num [crossfade_speed]
  have hdr : ((delta_ms : ℤ) : ℝ) ≤ 5000 := by exact_mod_cast hd
  have hdl : (5 : ℝ) ≤ ((delta_ms : ℤ) : ℝ) := by exact_mod_cast hd5
  have hinc0 : 0 ≤ 2 * π * ((delta_ms : ℤ) : ℝ) / 5000 := by positivity
  have hinc1 : 2 * π * ((delta_ms : ℤ) : ℝ) / 5000 ≤ 2 * π := by
    rw [div_le_iff₀ (by norm_num : (0 : ℝ) < 5000)]
    nlinarith
  unfold advance_phase
  rw [hcs]
  split_ifs with h
  · constructor
    · linarith
    · linarith
  · push_neg at h
    constructor
    · linarith
    · linarith

/-- Witness for C7 (amended) at `phase = 1`, `delta_ms = 100`. -/
theorem C7_phase_invariant_amended_witness :
    ((0 : ℝ) ≤ 1 ∧ (1 : ℝ) < 2 * π ∧ (5 : ℤ) ≤ 100 ∧ (100 : ℤ) ≤ 5000) ∧
      (0 ≤ advance_phase 1 100 ∧ advance_phase 1 100 < 2 * π) :=
  ⟨⟨by norm_num, by nlinarith [Real.pi_gt_three], by norm_num, by norm_num⟩,
    C7_phase_invariant_amended 1 100 (by norm_num)
      (by nlinarith [Real.pi_gt_three]) (by norm_num) (by norm_num)⟩

/-- C9: for every real `phase` — normalized into `[0, 2π)` or not —
`phase_to_step phase` is an integer in `{0, …, 3599}`, and hence indexes
within the bounds of `sine_table`, so the crossfade path's table lookup at
line 60 never goes out of range. -/
theorem C9_phase_to_step_in_bounds (p : ℝ) :
    0 ≤ phase_to_step p ∧ phase_to_step p < NUM_STEPS ∧
      (phase_to_step p).toNat < sine_table.length := by
  have hN : ((NUM_STEPS : ℕ) : ℤ) ≠ 0 := by norm_num [NUM_STEPS]
  have h1 : 0 ≤ phase_to_step p := Int.emod_nonneg _ hN
  have h2 : phase_to_step p < NUM_STEPS :=
    Int.emod_lt_of_pos _ (by norm_num [NUM_STEPS])
  refine ⟨h1, h2, ?_⟩
  have hlen : sine_table.length = NUM_STEPS := by
    unfold sine_table
    rw [List.length_map, List.length_range]
  rw [hlen]
  omega

/-- On a grid phase `2π·i/N` with `i < N`, the lookup formula of line 41
recovers the index `i` exactly: the float modulo leaves the phase unchanged
(it is already in `[0, 2π)`), truncation hits the exact integer `i`, and the
final `% NUM_STEPS` is the identity on `{0, …, N-1}`. -/
theorem phase_to_step_exact (i : ℕ) (hi : i < NUM_STEPS) :
    phase_to_step (2 * π * i / NUM_STEPS) = i := by
  have hπ := Real.pi_pos
  have hN : (0 : ℝ) < (NUM_STEPS : ℝ) := by norm_num [NUM_STEPS]
  have h2π : (0 : ℝ) < 2 * π := by linarith
  have hdiv : 2 * π * (i : ℝ) / (NUM_STEPS : ℝ) / (2 * π) = (i : ℝ) / (NUM_STEPS : ℝ) := by
    field_simp
    ring
  have hfr0 : (0 : ℝ) ≤ (i : ℝ) / (NUM_STEPS : ℝ) := by positivity
  have hfr1 : (i : ℝ) / (NUM_STEPS : ℝ) < 1 := by
    rw [div_lt_one hN]
    exact_mod_cast hi
  have hfloor : ⌊2 * π * (i : ℝ) / (NUM_STEPS : ℝ) / (2 * π)⌋ = 0 := by
    rw [hdiv]
    exact Int.floor_eq_zero_iff.mpr ⟨hfr0, hfr1⟩
  have hfmod : fmod (2 * π * (i : ℝ) / (NUM_STEPS : ℝ)) (2 * π)
      = 2 * π * (i : ℝ) / (NUM_STEPS : ℝ) := by
    unfold fmod
    rw [hfloor]
    push_cast
    ring
  have hval : fmod (2 * π * (i : ℝ) / (NUM_STEPS : ℝ)) (2 * π) * (NUM_STEPS : ℝ)
      / (2 * π) = (i : ℝ) := by
    rw [hfmod]
    field_simp
  unfold phase_to_step
  rw [hval, pyInt_of_nonneg (Nat.cast_nonneg i), Int.floor_natCast]
  exact Int.emod_eq_of_lt (by positivity) (by exact_mod_cast hi)

/-- C8: for every `i < N` with `N = 3600`, the table holds `sin(2π·i/N)` at
index `i`, and looking up the phase `2π·i/N` through the index formula of
line 41 returns exactly that entry: the looked-up step equals `i`, the table
value at that step is `sin(2π·i/N)` — so the phase actually sampled is
within the `2π/N` quantization error (here, within `0`) of the requested
phase. -/
theorem C8_table_lookup (i : ℕ) (hi : i < NUM_STEPS) :
    phase_to_step (2 * π * i / NUM_STEPS) = i ∧
      sine_table.getD (phase_to_step (2 * π * i / NUM_STEPS)).toNat 0 =
        Real.sin (2 * π * i / NUM_STEPS) ∧
      |2 * π * ((phase_to_step (2 * π * i / NUM_STEPS)).toNat : ℝ) / NUM_STEPS
          - 2 * π * i / NUM_STEPS| ≤ 2 * π / NUM_STEPS := by
  have h := phase_to_step_exact i hi
  have htn : (phase_to_step (2 * π * i / NUM_STEPS)).toNat = i := by
    rw [h]
    exact Int.toNat_natCast i
  refine ⟨h, ?_, ?_⟩
  · rw [htn]
    unfold sine_table
    rw [List.getD_eq_getElem?_getD, List.getElem?_map, List.getElem?_range hi]
    rfl
  · rw [htn, sub_self, abs_zero]
    positivity

/-- Witness for C8 at grid index `i = 7`. -/
theorem C8_table_lookup_witness :
    7 < NUM_STEPS ∧
      phase_to_step (2 * π * (7 : ℕ) / NUM_STEPS) = 7 :=
  ⟨by norm_num [NUM_STEPS], (C8_table_lookup 7 (by norm_num [NUM_STEPS])).1⟩

end FairyLights
